import Mathlib

/-!
Verification development for the sfdx-scanner core slice:
`src/lib/DefaultRuleManager.ts` (target unpacking and engine
orchestration) and
`pmd-cataloger/.../messaging/SfdxMessager.java` (message formatting).

The TypeScript/Java code is shallowly embedded: filesystem and glob
queries become fields of an explicit `FS` record, promises become
`Except String` values, and the nondeterministic settling order of
`Promise.all` is a `perm : List Nat` parameter.
-/

namespace SfdxScanner

/-- Filters are opaque descriptors to this core; only their identity
matters. -/
abbrev RuleFilter := String

/-- Rule: belongs to exactly one engine via its `engine` field
(`src/types.ts`, consumed read-only here). -/
structure Rule where
  engine : String
  name : String
deriving DecidableEq

/-- RuleGroup: a named collection of rules tagged with an owning
engine. -/
structure RuleGroup where
  engine : String
  name : String
deriving DecidableEq

/-- RuleResult is opaque to the orchestrator: it is only concatenated
and handed to the recombinator, so a single payload field suffices. -/
structure RuleResult where
  payload : String
deriving DecidableEq

/-- RuleTarget as produced by `unpackTargets`: the original target
string, whether it was a directory, and the resolved absolute paths. -/
structure RuleTarget where
  target : String
  isDirectory : Bool := false
  paths : List String
deriving DecidableEq

/-- RuleEngine capability record (`src/lib/services/RuleEngine.ts`
interface, as used by DefaultRuleManager): `name` is `getName()`,
`initRes` the outcome of `init()`, `getTargetPatterns` may be absent
(modelling a returned `undefined`), and `run` the engine execution. -/
structure RuleEngine where
  name : String
  initRes : Except String Unit
  getTargetPatterns : String → Option (List String)
  run : List RuleGroup → List Rule → List RuleTarget →
    List (String × String) → Except String (List RuleResult)

/-- RuleCatalog collaborator: init outcome and the two filter
queries used by DefaultRuleManager. -/
structure RuleCatalog where
  initRes : Except String Unit
  getRuleGroupsMatchingFilters : List RuleFilter → List RuleGroup
  getRulesMatchingFilters : List RuleFilter → List Rule

/-- Environment record bundling the filesystem and glob primitives the
TypeScript code calls: `fileHandler.exists`, `stats.isDirectory`,
`globby.hasMagic`, `globby(target)`, `globby(patterns, cwd)`,
`path.resolve`, `path.join`, and the base (non-negated) single-pattern
match used by picomatch. -/
structure FS where
  fsExists : String → Bool
  isDirectory : String → Bool
  hasMagic : String → Bool
  globby1 : String → List String
  globbyCwd : List String → String → List String
  resolve : String → String
  join : String → String → String
  matchGlob : String → String → Bool

/-- The `p.startsWith "!"` test from the source: whether the first
character of the pattern is the negation marker, computed on the
character data so it reduces structurally. -/
def startsWithBang (p : String) : Bool :=
  match p.data with
  | [] => false
  | c :: _ => c == '!'

/-- The `p.drop 1` call from the source: the pattern with its leading
negation marker removed, computed on the character data. -/
def dropOne (p : String) : String := String.mk (p.data.drop 1)

/-- One compiled picomatch pattern: a pattern starting with the
negation marker matches exactly the strings its base pattern does not
match; any other pattern matches via the base glob matcher. -/
def picomatchOne (fs : FS) (p : String) (s : String) : Bool :=
  if startsWithBang p then !(fs.matchGlob (dropOne p) s) else fs.matchGlob p s

/-- picomatch applied to an array of patterns: the resulting matcher
scans the compiled patterns and succeeds on the first one that
matches. With an empty array there is nothing to scan, so the matcher
returns `false` on every input. -/
def picomatch (fs : FS) (ps : List String) (s : String) : Bool :=
  ps.any (fun p => picomatchOne fs p s)

/-- JavaScript truthiness of an array value: every array object,
including the empty array, is truthy, so `if (targetPatterns)` always
takes the then-branch once `assert(targetPatterns)` has passed. -/
def jsArrayTruthy (_ps : List String) : Bool := true

/-- One iteration of the loop in `DefaultRuleManager.unpackTargets`
(lines 97-147): ask the engine for target patterns (asserting they are
defined), build the inclusive and exclusive matchers, then branch on
glob-magic / directory / plain file, returning the RuleTargets this
target contributes. -/
def unpackTarget (fs : FS) (engine : RuleEngine) (target : String) :
    Except String (List RuleTarget) :=
  match engine.getTargetPatterns target with
  | none => Except.error "AssertionError"
  | some targetPatterns =>
    let isInclusiveMatch := fun t =>
      picomatch fs (targetPatterns.filter (fun p => !(startsWithBang p))) t
    let isExclusiveMatch := fun t =>
      picomatch fs (targetPatterns.filter (fun p => startsWithBang p)) t
    let fileExists := fs.fsExists target
    if fs.hasMagic target then
      let matchingTargets := fs.globby1 target
      let absoluteMatchingTargets := matchingTargets.map fs.resolve
      let ruleTargetPaths := absoluteMatchingTargets.filter
        (fun t => isInclusiveMatch t && isExclusiveMatch t)
      if ruleTargetPaths.length > 0 then
        Except.ok [{ target := target, paths := ruleTargetPaths }]
      else
        Except.ok []
    else if fileExists then
      if fs.isDirectory target then
        if jsArrayTruthy targetPatterns then
          let relativePaths := fs.globbyCwd targetPatterns target
          let joinedPaths := relativePaths.map (fun t => fs.join target t)
          let absolutePaths := joinedPaths.map fs.resolve
          Except.ok [{ target := target, isDirectory := true, paths := absolutePaths }]
        else
          Except.ok [{ target := target, isDirectory := true, paths := ["."] }]
      else
        let absolutePath := fs.resolve target
        if isInclusiveMatch absolutePath && isExclusiveMatch absolutePath then
          Except.ok [{ target := target, paths := [absolutePath] }]
        else
          Except.ok []
    else
      Except.ok []

/-- `DefaultRuleManager.unpackTargets`: fold `unpackTarget` over the
target list in order, propagating the first assertion failure and
concatenating the contributed RuleTargets. -/
def unpackTargets (fs : FS) (engine : RuleEngine) :
    List String → Except String (List RuleTarget)
  | [] => Except.ok []
  | target :: rest =>
    match unpackTarget fs engine target with
    | Except.error m => Except.error m
    | Except.ok here =>
      match unpackTargets fs engine rest with
      | Except.error m => Except.error m
      | Except.ok there => Except.ok (here ++ there)

/-- Loop body of `runRulesMatchingCriteria` (lines 59-73): for each
engine in registration order, filter the groups and rules whose
`engine` field equals the engine name, unpack the targets (an
assertion failure there rejects the whole call), and push the engine's
run exactly when it has at least one rule and at least one RuleTarget.
The returned list holds, in engine order, the outcome of each
dispatched run. -/
def collectRuns (fs : FS) (ruleGroups : List RuleGroup) (rules : List Rule)
    (targets : List String) (engineOptions : List (String × String)) :
    List RuleEngine → Except String (List (Except String (List RuleResult)))
  | [] => Except.ok []
  | e :: rest =>
    match unpackTargets fs e targets with
    | Except.error m => Except.error m
    | Except.ok engineTargets =>
      match collectRuns fs ruleGroups rules targets engineOptions rest with
      | Except.error m => Except.error m
      | Except.ok there =>
        let engineGroups := ruleGroups.filter (fun g => g.engine == e.name)
        let engineRules := rules.filter (fun r => r.engine == e.name)
        if 0 < engineRules.length ∧ 0 < engineTargets.length then
          Except.ok (e.run engineGroups engineRules engineTargets engineOptions :: there)
        else
          Except.ok there

/-- What a single engine contributes to the dispatched-run list:
`none` when its targets fail to unpack or it is ineligible, and
`some` of its run outcome when it is dispatched. -/
def dispatchedRun (fs : FS) (ruleGroups : List RuleGroup) (rules : List Rule)
    (targets : List String) (engineOptions : List (String × String))
    (e : RuleEngine) : Option (Except String (List RuleResult)) :=
  match unpackTargets fs e targets with
  | Except.error _ => none
  | Except.ok engineTargets =>
    let engineGroups := ruleGroups.filter (fun g => g.engine == e.name)
    let engineRules := rules.filter (fun r => r.engine == e.name)
    if 0 < engineRules.length ∧ 0 < engineTargets.length then
      some (e.run engineGroups engineRules engineTargets engineOptions)
    else
      none

/-- Settling order of the dispatched promises: an arbitrary priority
list `perm`, completed with the index range so that every promise
settles, with duplicates removed. -/
def settleOrder (perm : List Nat) (n : Nat) : List Nat :=
  ((perm.filter (fun i => i < n)) ++ List.range n).dedup

/-- Extract the rejection message of a settled promise, if any. -/
def errOf? : Except String (List RuleResult) → Option String
  | Except.error m => some m
  | Except.ok _ => none

/-- Extract the resolution value of a settled promise, if any. -/
def okOf? : Except String (List RuleResult) → Option (List RuleResult)
  | Except.error _ => none
  | Except.ok v => some v

/-- `Promise.all` over the dispatched runs: it rejects with the first
rejection in settling order, and otherwise resolves with the values in
the order of the input array, regardless of settling order. -/
def promiseAll (perm : List Nat) (ps : List (Except String (List RuleResult))) :
    Except String (List (List RuleResult)) :=
  match (settleOrder perm ps.length).findSome? (fun i => (ps.get? i).bind errOf?) with
  | some m => Except.error m
  | none => Except.ok (ps.filterMap okOf?)

/-- `DefaultRuleManager.runRulesMatchingCriteria` (lines 52-86): query
the catalog, dispatch the eligible engines, await them all, fold the
result arrays together in array order and hand them to the
recombinator. The catch clause rethrows `new SfdxError(e.message || e)`,
which keeps the original message string, so errors pass through with
their message intact; an assertion failure from `unpackTargets`
happens outside the try block and also propagates as-is. -/
def runRulesMatchingCriteria (fs : FS) (catalog : RuleCatalog)
    (engines : List RuleEngine)
    (recombine : List RuleResult → String → Except String String)
    (perm : List Nat) (filters : List RuleFilter) (targets : List String)
    (format : String) (engineOptions : List (String × String)) :
    Except String String :=
  let ruleGroups := catalog.getRuleGroupsMatchingFilters filters
  let rules := catalog.getRulesMatchingFilters filters
  match collectRuns fs ruleGroups rules targets engineOptions engines with
  | Except.error m => Except.error m
  | Except.ok ps =>
    match promiseAll perm ps with
    | Except.error m => Except.error m
    | Except.ok psResults =>
      let results := psResults.foldl (fun acc r => acc ++ r) []
      recombine results format

/-- Observable state of a DefaultRuleManager instance for `init`:
the `initialized` flag and counters for the engine/catalog init side
effects that have been performed. -/
structure ManagerState where
  initialized : Bool
  engineInitCalls : Nat
  catalogInitCalls : Nat
deriving DecidableEq

/-- The `for (const engine of this.engines) await engine.init()` loop:
each call increments the side-effect counter; a failing engine init
stops the loop and propagates. -/
def runEngineInits : List RuleEngine → ManagerState → ManagerState × Except String Unit
  | [], s => (s, Except.ok ())
  | e :: rest, s =>
    let s' := { s with engineInitCalls := s.engineInitCalls + 1 }
    match e.initRes with
    | Except.error m => (s', Except.error m)
    | Except.ok _ => runEngineInits rest s'

/-- `DefaultRuleManager.init` (lines 34-46): return immediately when
already initialized; otherwise run every engine init, then the catalog
init, and only then set the `initialized` flag. -/
def init (engines : List RuleEngine) (catalog : RuleCatalog)
    (s : ManagerState) : ManagerState × Except String Unit :=
  if s.initialized then (s, Except.ok ())
  else
    match runEngineInits engines s with
    | (s', Except.error m) => (s', Except.error m)
    | (s', Except.ok _) =>
      let s'' := { s' with catalogInitCalls := s'.catalogInitCalls + 1 }
      match catalog.initRes with
      | Except.error m => (s'', Except.error m)
      | Except.ok _ => ({ s'' with initialized := true }, Except.ok ())

/-- Decimal digit character for `d`, written as an exhaustive match so
facts about it follow by case analysis. -/
def digitChar (d : Nat) : Char :=
  match d with
  | 0 => '0' | 1 => '1' | 2 => '2' | 3 => '3' | 4 => '4'
  | 5 => '5' | 6 => '6' | 7 => '7' | 8 => '8' | _ => '9'

/-- Hexadecimal digit character for `d` (0-15), lower case as Gson
emits it. -/
def hexDigit (d : Nat) : Char :=
  match d with
  | 0 => '0' | 1 => '1' | 2 => '2' | 3 => '3' | 4 => '4'
  | 5 => '5' | 6 => '6' | 7 => '7' | 8 => '8' | 9 => '9'
  | 10 => 'a' | 11 => 'b' | 12 => 'c' | 13 => 'd' | 14 => 'e' | _ => 'f'

/-- Decimal rendering of a natural number, most significant digit
first, as Gson prints the `time` field (a Java long). -/
def natDigits (n : Nat) : List Char :=
  if _h : n < 10 then [digitChar n]
  else natDigits (n / 10) ++ [digitChar (n % 10)]
decreasing_by
  exact Nat.div_lt_self (by omega) (by omega)

/-- Gson-style escaping of one character inside a JSON string: quote,
backslash and the common control characters get two-character escapes,
the remaining control characters and the HTML-sensitive characters get
a six-character unicode escape, and everything else passes through. -/
def escChar (c : Char) : List Char :=
  if c = '"' then ['\\', '"']
  else if c = '\\' then ['\\', '\\']
  else if c = '\n' then ['\\', 'n']
  else if c = '\r' then ['\\', 'r']
  else if c = '\t' then ['\\', 't']
  else if c.toNat < 32 ∨ c = '<' ∨ c = '>' ∨ c = '&' ∨ c = '=' ∨ c = Char.ofNat 39 then
    ['\\', 'u', '0', '0', hexDigit (c.toNat / 16 % 16), hexDigit (c.toNat % 16)]
  else [c]

/-- JSON string literal for the given character sequence: escaped body
between double quotes. -/
def jsonStringOf (s : List Char) : List Char :=
  '"' :: (s.map escChar).flatten ++ ['"']

/-- Comma-separated JSON string literals for the elements of a JSON
array. -/
def jsonArrayItems : List (List Char) → List Char
  | [] => []
  | [x] => jsonStringOf x
  | x :: y :: rest => jsonStringOf x ++ [','] ++ jsonArrayItems (y :: rest)

/-- JSON array of strings: items between square brackets. -/
def jsonArrayOf (xs : List (List Char)) : List Char :=
  '[' :: jsonArrayItems xs ++ [']']

/-- JSON boolean literal. -/
def jsonBool (b : Bool) : List Char :=
  if b then ['t', 'r', 'u', 'e'] else ['f', 'a', 'l', 's', 'e']

/-- `SfdxMessage.toJson`: Gson serialization of an `SfdxMessage`
instance, with the fields in declaration order — `key` (the EventKey
enum name), `args`, `type` and `handler` (enum names), `verbose`, and
`time` (epoch milliseconds). -/
def sfdxMessageToJson (key : List Char) (args : List (List Char))
    (type handler : List Char) (verbose : Bool) (time : Nat) : List Char :=
  [Char.ofNat 123]
  ++ jsonStringOf "key".data ++ [':'] ++ jsonStringOf key
  ++ [','] ++ jsonStringOf "args".data ++ [':'] ++ jsonArrayOf args
  ++ [','] ++ jsonStringOf "type".data ++ [':'] ++ jsonStringOf type
  ++ [','] ++ jsonStringOf "handler".data ++ [':'] ++ jsonStringOf handler
  ++ [','] ++ jsonStringOf "verbose".data ++ [':'] ++ jsonBool verbose
  ++ [','] ++ jsonStringOf "time".data ++ [':'] ++ natDigits time
  ++ [Char.ofNat 125]

/-- The START delimiter `SfdxMessager.START`. -/
def START : List Char := "SFDX-START".data

/-- The END delimiter `SfdxMessager.END`. -/
def END : List Char := "SFDX-END".data

/-- `SfdxMessager.formatMessage`: the serialized message sandwiched
between the START and END strings. -/
def formatMessage (key : List Char) (args : List (List Char))
    (type handler : List Char) (verbose : Bool) (time : Nat) : List Char :=
  START ++ sfdxMessageToJson key args type handler verbose time ++ END

/-- `SfdxMessager.uxWarn`: the line printed to stderr, which is
`formatMessage` at type WARNING and handler UX. -/
def uxWarn (key : List Char) (args : List (List Char)) (verbose : Bool)
    (time : Nat) : List Char :=
  formatMessage key args "WARNING".data "UX".data verbose time

/-- Concrete filesystem for witnesses and counterexamples: one plain
file `Foo.cls`, one directory `dir` whose pattern expansion is empty,
and one magic glob `*.cls` expanding to `Foo.cls`. The base glob
matcher accepts exactly the pair (pattern `**/*.cls`, the resolved
path of `Foo.cls`). -/
def demoFS : FS where
  fsExists := fun t => t == "Foo.cls" || t == "dir"
  isDirectory := fun t => t == "dir"
  hasMagic := fun t => t == "*.cls"
  globby1 := fun t => if t == "*.cls" then ["Foo.cls"] else []
  globbyCwd := fun _ _ => []
  resolve := fun t => "/work/" ++ t
  join := fun a b => a ++ "/" ++ b
  matchGlob := fun p t => p == "**/*.cls" && t == "/work/Foo.cls"

/-- Engine whose target patterns hold one inclusion and no exclusion
patterns. -/
def engineNoExcl : RuleEngine where
  name := "pmd"
  initRes := Except.ok ()
  getTargetPatterns := fun _ => some ["**/*.cls"]
  run := fun _ _ _ _ => Except.ok [{ payload := "pmd-result" }]

/-- Engine whose target patterns are the defined empty sequence. -/
def engineEmptyPat : RuleEngine where
  name := "empty"
  initRes := Except.ok ()
  getTargetPatterns := fun _ => some []
  run := fun _ _ _ _ => Except.ok []

/-- Engine with an inclusion and an exclusion pattern, so that under
`demoFS` the plain file `Foo.cls` passes both matchers. -/
def engineWithExcl : RuleEngine where
  name := "withexcl"
  initRes := Except.ok ()
  getTargetPatterns := fun _ => some ["**/*.cls", "!**/bad.cls"]
  run := fun _ _ _ _ => Except.ok [{ payload := "we-result" }]

/-- Engine used to show dispatch on a directory RuleTarget whose paths
list is empty. -/
def engineDirRun : RuleEngine where
  name := "direng"
  initRes := Except.ok ()
  getTargetPatterns := fun _ => some ["**/*.cls"]
  run := fun _ _ _ _ => Except.ok [{ payload := "dir-result" }]

/-- Engine whose run rejects. -/
def engineFail : RuleEngine where
  name := "failing"
  initRes := Except.ok ()
  getTargetPatterns := fun _ => some ["**/*.cls"]
  run := fun _ _ _ _ => Except.error "engine exploded"

/-- Engine whose run succeeds. -/
def engineOk : RuleEngine where
  name := "passing"
  initRes := Except.ok ()
  getTargetPatterns := fun _ => some ["**/*.cls"]
  run := fun _ _ _ _ => Except.ok [{ payload := "ok-result" }]

/-- Rules naming the demo engines. -/
def demoRules : List Rule :=
  [{ engine := "failing", name := "rule1" }, { engine := "passing", name := "rule2" },
   { engine := "direng", name := "rule3" }]

/-- Catalog returning `demoRules` for every filter list. -/
def demoCatalog : RuleCatalog where
  initRes := Except.ok ()
  getRuleGroupsMatchingFilters := fun _ => []
  getRulesMatchingFilters := fun _ => demoRules

/-- Recombinator joining result payloads with the requested format
appended, sufficient to observe which list it received. -/
def demoRecombine (results : List RuleResult) (format : String) :
    Except String String :=
  Except.ok (String.join (results.map RuleResult.payload) ++ ":" ++ format)

/-- Helper: `unpackTarget` never fails once the engine supplies a
defined pattern sequence. -/
theorem unpackTarget_ok_of_some (fs : FS) (e : RuleEngine) (t : String)
    (ps : List String) (hp : e.getTargetPatterns t = some ps) :
    ∃ rts, unpackTarget fs e t = Except.ok rts := by
  simp only [unpackTarget, hp]
  repeat' split
  all_goals exact ⟨_, rfl⟩

/-- C9: `unpackTarget` fails with the hard assertion failure exactly
when the engine answers with an absent pattern sequence; any defined
sequence, the empty one included, never triggers the failure. -/
theorem c9_assert_on_missing_patterns (fs : FS) (e : RuleEngine) (t : String) :
    (∃ m, unpackTarget fs e t = Except.error m) ↔
      e.getTargetPatterns t = none := by
  constructor
  · intro ⟨m, hm⟩
    cases hp : e.getTargetPatterns t with
    | none => rfl
    | some ps =>
      obtain ⟨rts, hok⟩ := unpackTarget_ok_of_some fs e t ps hp
      rw [hok] at hm
      exact absurd hm (by simp)
  · intro hp
    refine ⟨"AssertionError", ?_⟩
    simp only [unpackTarget, hp]

/-- C8: a target that is not a glob pattern and does not exist on disk
contributes no RuleTarget and raises no error, for any engine that
supplies a defined pattern sequence. -/
theorem c8_nonexistent_target_skipped (fs : FS) (e : RuleEngine)
    (target : String) (ps : List String)
    (hp : e.getTargetPatterns target = some ps)
    (hm : fs.hasMagic target = false)
    (he : fs.fsExists target = false) :
    unpackTarget fs e target = Except.ok [] := by
  simp only [unpackTarget, hp, hm, he, Bool.false_eq_true, if_false]

/-- Witness for C8 at the spec scenario `nonexistent/path`. -/
theorem c8_witness :
    unpackTarget demoFS engineNoExcl "nonexistent/path" = Except.ok [] :=
  c8_nonexistent_target_skipped demoFS engineNoExcl "nonexistent/path"
    ["**/*.cls"] rfl rfl rfl

/-- C7: once a call to `init` has succeeded, calling `init` again
returns immediately with the state unchanged — the engine and catalog
init side-effect counters stay exactly where the first call left
them. -/
theorem c7_init_idempotent (engines : List RuleEngine)
    (catalog : RuleCatalog) (s s' : ManagerState)
    (h : init engines catalog s = (s', Except.ok ())) :
    init engines catalog s' = (s', Except.ok ()) := by
  have hinit : s'.initialized = true := by
    unfold init at h
    split at h
    · cases h
      assumption
    · split at h
      · exact absurd h (by simp)
      · split at h
        · exact absurd h (by simp)
        · cases h
          rfl
  unfold init
  rw [if_pos hinit]

/-- Witness for C7: two engines and a catalog, all of whose inits
succeed; one successful call performs two engine init calls and one
catalog init call, and the second call changes nothing. -/
theorem c7_witness :
    init [engineFail, engineOk] demoCatalog
      { initialized := true, engineInitCalls := 2, catalogInitCalls := 1 } =
      ({ initialized := true, engineInitCalls := 2, catalogInitCalls := 1 },
        Except.ok ()) :=
  c7_init_idempotent [engineFail, engineOk] demoCatalog
    { initialized := false, engineInitCalls := 0, catalogInitCalls := 0 }
    { initialized := true, engineInitCalls := 2, catalogInitCalls := 1 }
    rfl

/-- Helper for C3: a single target's contribution contains no
non-directory RuleTarget with an empty paths list — the glob branch
checks the expansion length before pushing, and the plain-file branch
always pushes a single path. -/
theorem unpackTarget_nonDir_paths_nonempty (fs : FS) (e : RuleEngine)
    (t : String) (rts : List RuleTarget) (rt : RuleTarget)
    (h : unpackTarget fs e t = Except.ok rts) (hmem : rt ∈ rts)
    (hd : rt.isDirectory = false) : rt.paths ≠ [] := by
  simp only [unpackTarget] at h
  split at h
  · simp at h
  · split at h
    · split at h
      · rename_i hlen
        injection h with h2
        subst h2
        rw [List.mem_singleton] at hmem
        subst hmem
        exact List.length_pos.mp hlen
      · injection h with h2
        subst h2
        simp at hmem
    · split at h
      · split at h
        · split at h
          · injection h with h2
            subst h2
            rw [List.mem_singleton] at hmem
            subst hmem
            simp at hd
          · injection h with h2
            subst h2
            rw [List.mem_singleton] at hmem
            subst hmem
            simp at hd
        · split at h
          · injection h with h2
            subst h2
            rw [List.mem_singleton] at hmem
            subst hmem
            simp
          · injection h with h2
            subst h2
            simp at hmem
      · injection h with h2
        subst h2
        simp at hmem

/-- C3 (amended): every non-directory RuleTarget returned by
`unpackTargets` has a non-empty paths list — in particular a glob
target whose filtered expansion is empty contributes nothing. A
directory target, however, is pushed unconditionally, so its
RuleTarget may carry an empty paths list (see the counterexample). -/
theorem c3_nondirectory_paths_nonempty (fs : FS) (e : RuleEngine) :
    ∀ (targets : List String) (rts : List RuleTarget),
      unpackTargets fs e targets = Except.ok rts →
      ∀ rt ∈ rts, rt.isDirectory = false → rt.paths ≠ [] := by
  intro targets
  induction targets with
  | nil =>
    intro rts h rt hmem hd
    simp only [unpackTargets] at h
    injection h with h2
    subst h2
    simp at hmem
  | cons t rest ih =>
    intro rts h rt hmem hd
    cases hu : unpackTarget fs e t with
    | error m =>
      simp only [unpackTargets, hu] at h
      exact Except.noConfusion h
    | ok here =>
      cases hr : unpackTargets fs e rest with
      | error m =>
        simp only [unpackTargets, hu, hr] at h
        exact Except.noConfusion h
      | ok there =>
        simp only [unpackTargets, hu, hr] at h
        injection h with h2
        subst h2
        rcases List.mem_append.mp hmem with hL | hR
        · exact unpackTarget_nonDir_paths_nonempty fs e t here rt hu hL hd
        · exact ih there hr rt hR hd

/-- Counterexample to C3 as stated: the existing directory `dir` whose
pattern expansion yields zero files still produces a RuleTarget, and
that RuleTarget has an empty paths list. -/
theorem c3_counterexample :
    unpackTargets demoFS engineDirRun ["dir"] =
      Except.ok [{ target := "dir", isDirectory := true, paths := [] }] ∧
    ({ target := "dir", isDirectory := true, paths := [] } : RuleTarget).paths = [] :=
  ⟨rfl, rfl⟩

/-- Witness for C3 at a concrete plain-file target that survives both
matchers. -/
theorem c3_witness :
    ({ target := "Foo.cls", isDirectory := false,
        paths := ["/work/Foo.cls"] } : RuleTarget).paths ≠ [] :=
  c3_nondirectory_paths_nonempty demoFS engineWithExcl ["Foo.cls"]
    [{ target := "Foo.cls", isDirectory := false, paths := ["/work/Foo.cls"] }]
    rfl
    { target := "Foo.cls", isDirectory := false, paths := ["/work/Foo.cls"] }
    (by simp) rfl

/-- C4 (amended): once its targets unpack successfully, an engine is
dispatched exactly when it has at least one matching rule and the
RuleTarget list is non-empty — the code counts RuleTargets, not
RuleTargets with non-empty paths — and an ineligible engine is
skipped with no error. -/
theorem c4_dispatch_iff (fs : FS) (ruleGroups : List RuleGroup)
    (rules : List Rule) (targets : List String)
    (engineOptions : List (String × String)) (e : RuleEngine)
    (ts : List RuleTarget) (h : unpackTargets fs e targets = Except.ok ts) :
    ((dispatchedRun fs ruleGroups rules targets engineOptions e).isSome ↔
      (rules.filter (fun r => r.engine == e.name) ≠ [] ∧ ts ≠ [])) ∧
    collectRuns fs ruleGroups rules targets engineOptions [e] =
      Except.ok (dispatchedRun fs ruleGroups rules targets engineOptions e).toList := by
  constructor
  · simp only [dispatchedRun, h]
    split
    · rename_i hc
      simp only [Option.isSome_some, true_iff]
      exact ⟨List.length_pos.mp hc.1, List.length_pos.mp hc.2⟩
    · rename_i hc
      simp only [Option.isSome_none, Bool.false_eq_true, false_iff]
      intro hand
      exact hc ⟨List.length_pos.mpr hand.1, List.length_pos.mpr hand.2⟩
  · simp only [collectRuns, dispatchedRun, h]
    split
    · simp [Option.toList]
    · simp [Option.toList]

/-- Counterexample to C4 as stated: engine `direng` has one matching
rule and its only resolved target has an empty paths list — so it has
no resolved target with non-empty paths — yet its run is
dispatched. -/
theorem c4_counterexample :
    unpackTargets demoFS engineDirRun ["dir"] =
      Except.ok [{ target := "dir", isDirectory := true, paths := [] }] ∧
    collectRuns demoFS [] demoRules ["dir"] [] [engineDirRun] =
      Except.ok [Except.ok [{ payload := "dir-result" }]] :=
  ⟨rfl, rfl⟩

/-- Witness for C4 at the concrete directory scenario. -/
theorem c4_witness :
    ((dispatchedRun demoFS [] demoRules ["dir"] [] engineDirRun).isSome ↔
      (demoRules.filter (fun r => r.engine == engineDirRun.name) ≠ [] ∧
        ([{ target := "dir", isDirectory := true, paths := [] }] :
          List RuleTarget) ≠ [])) ∧
    collectRuns demoFS [] demoRules ["dir"] [] [engineDirRun] =
      Except.ok (dispatchedRun demoFS [] demoRules ["dir"] [] engineDirRun).toList :=
  c4_dispatch_iff demoFS [] demoRules ["dir"] [] engineDirRun
    [{ target := "dir", isDirectory := true, paths := [] }] rfl

/-- Helper: every index below `n` occurs in the settling order. -/
theorem mem_settleOrder (perm : List Nat) (n i : Nat) (h : i < n) :
    i ∈ settleOrder perm n := by
  unfold settleOrder
  rw [List.mem_dedup]
  exact List.mem_append_right _ (List.mem_range.mpr h)

/-- Helper: when every dispatched run resolved, `Promise.all` resolves
with the result lists in array order, whatever the settling order. -/
theorem promiseAll_map_ok (perm : List Nat) (rs : List (List RuleResult)) :
    promiseAll perm (rs.map Except.ok) = Except.ok rs := by
  have hnone : (settleOrder perm
        (rs.map (Except.ok : List RuleResult → Except String (List RuleResult))).length).findSome?
      (fun i => ((rs.map (Except.ok : List RuleResult →
        Except String (List RuleResult))).get? i).bind errOf?) = none := by
    rw [List.findSome?_eq_none_iff]
    intro i _
    rw [List.get?_map]
    cases rs.get? i <;> simp [errOf?]
  simp only [promiseAll, hnone]
  congr 1
  rw [List.filterMap_map]
  have hcomp : (okOf? ∘ Except.ok) =
      (some : List RuleResult → Option (List RuleResult)) := rfl
  rw [hcomp, List.filterMap_some]

/-- Helper: if some dispatched run rejected, `Promise.all` rejects,
and the surfaced message is the message of one of the rejected runs,
for every settling order. -/
theorem promiseAll_error_of_mem (perm : List Nat)
    (ps : List (Except String (List RuleResult))) (m0 : String)
    (hmem : Except.error m0 ∈ ps) :
    ∃ m, promiseAll perm ps = Except.error m ∧ Except.error m ∈ ps := by
  cases hf : (settleOrder perm ps.length).findSome?
      (fun i => (ps.get? i).bind errOf?) with
  | none =>
    exfalso
    obtain ⟨j, hj⟩ := List.get?_of_mem hmem
    obtain ⟨hjlt, _⟩ := List.get?_eq_some.mp hj
    have hx := List.findSome?_eq_none_iff.mp hf j
      (mem_settleOrder perm ps.length j hjlt)
    rw [hj] at hx
    simp [errOf?] at hx
  | some m =>
    obtain ⟨l₁, a, l₂, _, ha, _⟩ := List.findSome?_eq_some_iff.mp hf
    refine ⟨m, by simp only [promiseAll, hf], ?_⟩
    cases hg : ps.get? a with
    | none => rw [hg] at ha; simp at ha
    | some p =>
      rw [hg] at ha
      cases p with
      | error me =>
        simp [errOf?] at ha
        subst ha
        exact List.get?_mem hg
      | ok v => simp [errOf?] at ha

/-- Helper: the dispatched-run list is the engines' contributions in
registration order. -/
theorem collectRuns_eq_filterMap (fs : FS) (ruleGroups : List RuleGroup)
    (rules : List Rule) (targets : List String)
    (engineOptions : List (String × String)) :
    ∀ (engines : List RuleEngine) (ps : List (Except String (List RuleResult))),
      collectRuns fs ruleGroups rules targets engineOptions engines = Except.ok ps →
      ps = engines.filterMap (dispatchedRun fs ruleGroups rules targets engineOptions) := by
  intro engines
  induction engines with
  | nil =>
    intro ps h
    simp only [collectRuns] at h
    injection h with h2
    subst h2
    rfl
  | cons e rest ih =>
    intro ps h
    cases hu : unpackTargets fs e targets with
    | error m =>
      simp only [collectRuns, hu] at h
      exact Except.noConfusion h
    | ok ts =>
      cases hc : collectRuns fs ruleGroups rules targets engineOptions rest with
      | error m =>
        simp only [collectRuns, hu, hc] at h
        exact Except.noConfusion h
      | ok there =>
        simp only [collectRuns, hu, hc] at h
        split at h
        · rename_i hcond
          injection h with h2
          subst h2
          simp only [List.filterMap_cons, dispatchedRun, hu, if_pos hcond]
          rw [ih there hc]
        · rename_i hcond
          injection h with h2
          subst h2
          simp only [List.filterMap_cons, dispatchedRun, hu, if_neg hcond]
          exact ih there hc

/-- Helper: folding list append from the left starting at `acc` is
`acc` followed by the flattening. -/
theorem foldl_append_eq_flatten {α : Type} :
    ∀ (ls : List (List α)) (acc : List α),
      ls.foldl (fun a r => a ++ r) acc = acc ++ ls.flatten := by
  intro ls
  induction ls with
  | nil => intro acc; simp
  | cons x rest ih => intro acc; simp [ih, List.append_assoc]

/-- C5: if some dispatched engine's run rejected, the whole
`runRulesMatchingCriteria` call fails with a single error whose
message is, verbatim, the message of one of the rejected dispatched
runs, for every settling order; no combined report is produced. -/
theorem c5_engine_failure_aborts (fs : FS) (catalog : RuleCatalog)
    (engines : List RuleEngine)
    (recombine : List RuleResult → String → Except String String)
    (perm : List Nat) (filters : List RuleFilter) (targets : List String)
    (format : String) (engineOptions : List (String × String))
    (ps : List (Except String (List RuleResult))) (m0 : String)
    (hps : collectRuns fs (catalog.getRuleGroupsMatchingFilters filters)
        (catalog.getRulesMatchingFilters filters) targets engineOptions engines =
        Except.ok ps)
    (hmem : Except.error m0 ∈ ps) :
    ∃ m, runRulesMatchingCriteria fs catalog engines recombine perm filters
        targets format engineOptions = Except.error m ∧
      Except.error m ∈ ps := by
  obtain ⟨m, hPA, hm⟩ := promiseAll_error_of_mem perm ps m0 hmem
  refine ⟨m, ?_, hm⟩
  simp only [runRulesMatchingCriteria, hps, hPA]

/-- Witness for C5: engine `failing` rejects while engine `passing`
resolves; the call fails with the failing engine's message. -/
theorem c5_witness :
    ∃ m, runRulesMatchingCriteria demoFS demoCatalog [engineFail, engineOk]
        demoRecombine [] [] ["dir"] "json" [] = Except.error m ∧
      Except.error m ∈ ([Except.error "engine exploded",
        Except.ok [{ payload := "ok-result" }]] :
          List (Except String (List RuleResult))) :=
  c5_engine_failure_aborts demoFS demoCatalog [engineFail, engineOk]
    demoRecombine [] [] ["dir"] "json" []
    [Except.error "engine exploded", Except.ok [{ payload := "ok-result" }]]
    "engine exploded" rfl (by simp)

/-- C6: when every dispatched run resolved, the call hands the
recombinator the concatenation of the per-engine result lists in
engine registration order, for every settling order `perm` — the
outcome does not depend on completion timing. -/
theorem c6_results_in_engine_order (fs : FS) (catalog : RuleCatalog)
    (engines : List RuleEngine)
    (recombine : List RuleResult → String → Except String String)
    (perm : List Nat) (filters : List RuleFilter) (targets : List String)
    (format : String) (engineOptions : List (String × String))
    (rs : List (List RuleResult))
    (hps : collectRuns fs (catalog.getRuleGroupsMatchingFilters filters)
        (catalog.getRulesMatchingFilters filters) targets engineOptions engines =
        Except.ok (rs.map Except.ok)) :
    runRulesMatchingCriteria fs catalog engines recombine perm filters
        targets format engineOptions = recombine rs.flatten format ∧
    rs.map Except.ok = engines.filterMap
      (dispatchedRun fs (catalog.getRuleGroupsMatchingFilters filters)
        (catalog.getRulesMatchingFilters filters) targets engineOptions) := by
  constructor
  · simp only [runRulesMatchingCriteria, hps, promiseAll_map_ok]
    rw [foldl_append_eq_flatten]
    rw [List.nil_append]
  · exact collectRuns_eq_filterMap fs
      (catalog.getRuleGroupsMatchingFilters filters)
      (catalog.getRulesMatchingFilters filters) targets engineOptions
      engines (rs.map Except.ok) hps

/-- Witness for C6: two successful engines; the recombinator receives
their results concatenated in registration order. -/
theorem c6_witness :
    runRulesMatchingCriteria demoFS demoCatalog [engineOk, engineDirRun]
        demoRecombine [] [] ["dir"] "json" [] =
      demoRecombine ([[{ payload := "ok-result" }], [{ payload := "dir-result" }]] :
        List (List RuleResult)).flatten "json" ∧
    ([[{ payload := "ok-result" }], [{ payload := "dir-result" }]] :
        List (List RuleResult)).map Except.ok =
      [engineOk, engineDirRun].filterMap
        (dispatchedRun demoFS (demoCatalog.getRuleGroupsMatchingFilters [])
          (demoCatalog.getRulesMatchingFilters []) ["dir"] []) :=
  c6_results_in_engine_order demoFS demoCatalog [engineOk, engineDirRun]
    demoRecombine [] [] ["dir"] "json" []
    [[{ payload := "ok-result" }], [{ payload := "dir-result" }]] rfl

/-- C1, evaluated at the failing input: engine `pmd` declares the
single inclusion pattern `**/*.cls` and no exclusion patterns. The
resolved path of the existing file `Foo.cls` matches the inclusion
matcher, yet the matcher built from the empty exclusion set rejects
every path, so both the plain-file target `Foo.cls` and the glob
target `*.cls` (which expands to `Foo.cls`) produce no RuleTarget at
all. -/
theorem c1_code_eval :
    (["**/*.cls"].filter (fun p => startsWithBang p)) = [] ∧
    picomatch demoFS ["**/*.cls"] (demoFS.resolve "Foo.cls") = true ∧
    picomatch demoFS [] (demoFS.resolve "Foo.cls") = false ∧
    unpackTargets demoFS engineNoExcl ["Foo.cls"] = Except.ok [] ∧
    demoFS.hasMagic "*.cls" = true ∧
    demoFS.globby1 "*.cls" = ["Foo.cls"] ∧
    unpackTargets demoFS engineNoExcl ["*.cls"] = Except.ok [] :=
  ⟨rfl, rfl, rfl, rfl, rfl, rfl, rfl⟩

/-- C2, evaluated at the failing input: engine `empty` answers the
defined empty pattern sequence for the existing directory `dir`. The
defined array is truthy, so the code expands the empty pattern list
under the directory and pushes a RuleTarget whose paths list is the
empty expansion — not the single-element placeholder list `["."]`
described by the claim. -/
theorem c2_code_eval :
    engineEmptyPat.getTargetPatterns "dir" = some [] ∧
    demoFS.fsExists "dir" = true ∧
    demoFS.isDirectory "dir" = true ∧
    unpackTargets demoFS engineEmptyPat ["dir"] =
      Except.ok [{ target := "dir", isDirectory := true, paths := [] }] ∧
    ([{ target := "dir", isDirectory := true, paths := [] }] : List RuleTarget) ≠
      [{ target := "dir", isDirectory := true, paths := ["."] }] :=
  ⟨rfl, rfl, rfl, rfl, by decide⟩

/-- Helper: decimal digit characters are never a newline. -/
theorem digitChar_ne_newline (d : Nat) : digitChar d ≠ '\n' := by
  unfold digitChar
  split <;> decide

/-- Helper: hexadecimal digit characters are never a newline. -/
theorem hexDigit_ne_newline (d : Nat) : hexDigit d ≠ '\n' := by
  unfold hexDigit
  split <;> decide

/-- Helper: the decimal rendering of a natural number holds no
newline. -/
theorem newline_not_mem_natDigits (n : Nat) : '\n' ∉ natDigits n := by
  induction n using Nat.strong_induction_on with
  | _ n ih =>
    rw [natDigits]
    split
    · intro hmem
      rw [List.mem_singleton] at hmem
      exact digitChar_ne_newline n hmem.symm
    · intro hmem
      rcases List.mem_append.mp hmem with hL | hR
      · exact ih (n / 10) (Nat.div_lt_self (by omega) (by omega)) hL
      · rw [List.mem_singleton] at hR
        exact digitChar_ne_newline (n % 10) hR.symm

/-- Helper: the escape sequence of any character holds no raw
newline — a newline in the input becomes the two characters of its
escape. -/
theorem newline_not_mem_escChar (c : Char) : '\n' ∉ escChar c := by
  unfold escChar
  split
  · decide
  · split
    · decide
    · split
      · decide
      · split
        · decide
        · split
          · decide
          · split
            · intro hmem
              simp only [List.mem_cons, List.not_mem_nil, or_false] at hmem
              rcases hmem with h | h | h | h | h | h
              · exact absurd h (by decide)
              · exact absurd h (by decide)
              · exact absurd h (by decide)
              · exact absurd h (by decide)
              · exact hexDigit_ne_newline _ h.symm
              · exact hexDigit_ne_newline _ h.symm
            · rename_i hq hb hn hr ht hctl
              intro hmem
              rw [List.mem_singleton] at hmem
              exact hn hmem.symm

/-- Helper: a serialized JSON string literal holds no newline. -/
theorem newline_not_mem_jsonStringOf (s : List Char) :
    '\n' ∉ jsonStringOf s := by
  unfold jsonStringOf
  intro hmem
  rcases List.mem_cons.mp hmem with h | hmem2
  · exact absurd h (by decide)
  · rcases List.mem_append.mp hmem2 with h | h
    · rw [List.mem_flatten] at h
      obtain ⟨l, hl, hmem3⟩ := h
      rw [List.mem_map] at hl
      obtain ⟨c, _, rfl⟩ := hl
      exact newline_not_mem_escChar c hmem3
    · rw [List.mem_singleton] at h
      exact absurd h (by decide)

/-- Helper: the comma-joined array items hold no newline. -/
theorem newline_not_mem_jsonArrayItems :
    ∀ (xs : List (List Char)), '\n' ∉ jsonArrayItems xs
  | [] => by simp [jsonArrayItems]
  | [x] => by
    simp only [jsonArrayItems]
    exact newline_not_mem_jsonStringOf x
  | x :: y :: rest => by
    simp only [jsonArrayItems]
    intro hmem
    rcases List.mem_append.mp hmem with h | h
    · rcases List.mem_append.mp h with h2 | h2
      · exact newline_not_mem_jsonStringOf x h2
      · rw [List.mem_singleton] at h2
        exact absurd h2 (by decide)
    · exact newline_not_mem_jsonArrayItems (y :: rest) h

/-- Helper: a serialized JSON string array holds no newline. -/
theorem newline_not_mem_jsonArrayOf (xs : List (List Char)) :
    '\n' ∉ jsonArrayOf xs := by
  unfold jsonArrayOf
  intro hmem
  rcases List.mem_cons.mp hmem with h | hmem2
  · exact absurd h (by decide)
  · rcases List.mem_append.mp hmem2 with h | h
    · exact newline_not_mem_jsonArrayItems xs h
    · rw [List.mem_singleton] at h
      exact absurd h (by decide)

/-- Helper: JSON boolean literals hold no newline. -/
theorem newline_not_mem_jsonBool (b : Bool) : '\n' ∉ jsonBool b := by
  cases b <;> decide

/-- Helper: appending newline-free character lists stays
newline-free. -/
theorem noNL_append {a b : List Char} (ha : '\n' ∉ a) (hb : '\n' ∉ b) :
    '\n' ∉ a ++ b := by
  intro h
  rcases List.mem_append.mp h with h | h
  · exact ha h
  · exact hb h

/-- Helper: the serialized SfdxMessage holds no newline, whatever the
key, args, enum names, flag and timestamp. -/
theorem newline_not_mem_sfdxMessageToJson (key : List Char)
    (args : List (List Char)) (type handler : List Char) (verbose : Bool)
    (time : Nat) :
    '\n' ∉ sfdxMessageToJson key args type handler verbose time := by
  unfold sfdxMessageToJson
  intro hmem
  simp only [List.mem_append] at hmem
  casesm* _ ∨ _
  all_goals rename_i h
  all_goals
    first
      | exact newline_not_mem_jsonStringOf _ h
      | exact newline_not_mem_jsonArrayOf _ h
      | exact newline_not_mem_jsonBool _ h
      | exact newline_not_mem_natDigits _ h
      | exact absurd h (by decide)

/-- C10: the line `uxWarn` prints is exactly the literal delimiter
`SFDX-START`, followed by the Gson serialization of an SfdxMessage
carrying the given key and args with type WARNING, handler UX and the
given verbose flag, followed by the literal delimiter `SFDX-END`; and
the line holds no newline character, so the bracketed message is a
single line. -/
theorem c10_uxwarn_line_format (key : List Char) (args : List (List Char))
    (verbose : Bool) (time : Nat) :
    uxWarn key args verbose time =
      START ++ sfdxMessageToJson key args "WARNING".data "UX".data verbose time
        ++ END ∧
    '\n' ∉ uxWarn key args verbose time := by
  refine ⟨rfl, ?_⟩
  unfold uxWarn formatMessage
  apply noNL_append
  · apply noNL_append
    · decide
    · exact newline_not_mem_sfdxMessageToJson key args "WARNING".data
        "UX".data verbose time
  · decide

end SfdxScanner
